import Mathlib

/-!
Verification development for `github_scraping.py`, an interactive
search-and-triage script.  Each definition below is a shallow embedding of a
function of the script; blocking input, network responses and the exception
outcomes of library calls are passed in as explicit parameters (oracles), and
observable side effects are returned as explicit event lists or result fields.
Source locations are cited next to every definition.
-/

/- Constants of the script (`github_scraping.py`, lines 21-23, 152). -/

def CONFIRM_PREVIEW_THRESHOLD : Nat := 100

def INITIAL_PREVIEW_SIZE : Nat := 10

def ITEMS_PER_PAGE : Nat := 30

def TMP_ARCHIVE : String := "output.zip"

/- Data model.  A raw item of the search payload carries the fields read at
lines 101-108; `SearchResult` is the normalized record built there. -/

structure RawItem where
  repository_html_url : String
  repository_name : String
  repository_owner_login : String
  html_url : String
  path : String
deriving DecidableEq

structure SearchResult where
  repo_url : String
  search_url : String
  owner : String
  repo : String
  path : String
deriving DecidableEq

/-- Normalization performed in the loop body of `get_query_results`
(lines 101-108). -/
def resultOfItem (it : RawItem) : SearchResult :=
  { repo_url := it.repository_html_url
    search_url := it.html_url
    owner := it.repository_owner_login
    repo := it.repository_name
    path := it.path }

/-- Deduplication key `(result["owner"], result["repo"])` (line 189). -/
def keyOf (r : SearchResult) : String × String := (r.owner, r.repo)

/-!
`make_request` (lines 81-92).  The network is an oracle mapping a page number
to the decoded JSON payload, modelled as `some items` when the payload has an
`items` field and `none` when it lacks one.  The function returns the items or
raises `RuntimeError` (modelled as `Except.error ()`) when `items` is absent.
-/

def make_request (net : Nat → Option (List RawItem)) (page : Nat) :
    Except Unit (List RawItem) :=
  match net page with
  | some items => Except.ok items
  | none => Except.error ()

/-!
`get_query_results` (lines 95-111): accumulate pages starting at page 1 until
a page has fewer than `ITEMS_PER_PAGE` items.  The Python `while` loop is
embedded with explicit fuel; `fuelOut` marks exhausted fuel (the Python loop
would still be running), `rateLimited` marks the propagated `RuntimeError`
of `make_request`.
-/

inductive FetchOutcome where
  | ok (results : List SearchResult)
  | rateLimited
  | fuelOut
deriving DecidableEq

def queryLoop (net : Nat → Option (List RawItem)) :
    Nat → Nat → List SearchResult → FetchOutcome
  | 0, _, _ => FetchOutcome.fuelOut
  | fuel + 1, page, acc =>
    match make_request net page with
    | Except.error _ => FetchOutcome.rateLimited
    | Except.ok items =>
      if items.length < ITEMS_PER_PAGE then
        FetchOutcome.ok (acc ++ items.map resultOfItem)
      else
        queryLoop net fuel (page + 1) (acc ++ items.map resultOfItem)

def get_query_results (net : Nat → Option (List RawItem)) (fuel : Nat) :
    FetchOutcome :=
  queryLoop net fuel 1 []

/- Helpers used to state what `get_query_results` returns: the pages
`p, p+1, ..., p+k-1` flattened in order. -/

def catLists : List (List α) → List α
  | [] => []
  | l :: ls => l ++ catLists ls

def pageNums : Nat → Nat → List Nat
  | _, 0 => []
  | p, j + 1 => p :: pageNums (p + 1) j

def pageResults (net : Nat → Option (List RawItem)) (p : Nat) :
    List SearchResult :=
  ((net p).getD []).map resultOfItem

def joinPages (net : Nat → Option (List RawItem)) (p k : Nat) :
    List SearchResult :=
  catLists ((pageNums p k).map (pageResults net))

theorem joinPages_succ (net : Nat → Option (List RawItem)) (p k : Nat) :
    joinPages net p (k + 1) = pageResults net p ++ joinPages net (p + 1) k := by
  simp [joinPages, pageNums, catLists]

theorem queryLoop_spec (net : Nat → Option (List RawItem)) :
    ∀ (j p : Nat) (acc : List SearchResult) (fuel : Nat), j < fuel →
      (∀ q, p ≤ q → q < p + j → (net q).map List.length = some 30) →
      (∃ last, net (p + j) = some last ∧ last.length < 30) →
      queryLoop net fuel p acc = FetchOutcome.ok (acc ++ joinPages net p (j + 1)) := by
  intro j
  induction j with
  | zero =>
    intro p acc fuel hf hfull hshort
    obtain ⟨last, hnet, hlen⟩ := hshort
    rw [show p + 0 = p from rfl] at hnet
    cases fuel with
    | zero => omega
    | succ f =>
      simp only [queryLoop, make_request, hnet]
      rw [if_pos (show last.length < ITEMS_PER_PAGE from hlen)]
      simp [joinPages, pageNums, catLists, pageResults, hnet]
  | succ j ih =>
    intro p acc fuel hf hfull hshort
    cases fuel with
    | zero => omega
    | succ f =>
      have hp : (net p).map List.length = some 30 :=
        hfull p le_rfl (by omega)
      obtain ⟨l, hl, hlen⟩ : ∃ l, net p = some l ∧ l.length = 30 := by
        cases hnp : net p with
        | none => rw [hnp] at hp; simp at hp
        | some l =>
          rw [hnp] at hp; simp at hp; exact ⟨l, rfl, hp⟩
      simp only [queryLoop, make_request, hl]
      rw [if_neg (show ¬ l.length < ITEMS_PER_PAGE by rw [hlen]; simp [ITEMS_PER_PAGE])]
      rw [ih (p + 1) (acc ++ l.map resultOfItem) f (by omega)
            (fun q h1 h2 => hfull q (by omega) (by omega))
            (by rw [show p + 1 + j = p + (j + 1) from by omega]; exact hshort)]
      rw [joinPages_succ net p (j + 1)]
      simp [pageResults, hl, List.append_assoc]

theorem joinPages_length (net : Nat → Option (List RawItem)) :
    ∀ (j p : Nat),
      (∀ q, p ≤ q → q < p + j → (net q).map List.length = some 30) →
      ∀ last, net (p + j) = some last →
      (joinPages net p (j + 1)).length = 30 * j + last.length := by
  intro j
  induction j with
  | zero =>
    intro p hfull last hlast
    rw [show p + 0 = p from rfl] at hlast
    simp [joinPages, pageNums, catLists, pageResults, hlast]
  | succ j ih =>
    intro p hfull last hlast
    have hp : (net p).map List.length = some 30 :=
      hfull p le_rfl (by omega)
    obtain ⟨l, hl, hlen⟩ : ∃ l, net p = some l ∧ l.length = 30 := by
      cases hnp : net p with
      | none => rw [hnp] at hp; simp at hp
      | some l =>
        rw [hnp] at hp; simp at hp; exact ⟨l, rfl, hp⟩
    rw [joinPages_succ net p (j + 1)]
    rw [List.length_append]
    rw [ih (p + 1) (fun q h1 h2 => hfull q (by omega) (by omega)) last
          (by rw [show p + 1 + j = p + (j + 1) from by omega]; exact hlast)]
    simp [pageResults, hl, hlen]
    omega

/-!
`download_repository` (lines 148-167).  The zipball HTTP status and the
outcome of the `zipfile` extraction are oracles.  The `try` block catches
only `FileNotFoundError`; every other exception of `ZipFile`/`extractall`
(for example `zipfile.BadZipFile` for a corrupt or truncated archive)
propagates.  The `finally` clause removes the temporary archive on every path
that reaches the `try` block.  `archiveAfter` tracks whether the temporary
archive file exists after the call, `writePath` the path the archive bytes
were written to (when the write at lines 155-156 happened at all).
-/

inductive ExtractOutcome where
  | ok
  | fileNotFound (e : String)
  | otherError (e : String)
deriving DecidableEq

/-- Message built at line 162. -/
def extract_fail_msg (r : SearchResult) (e : String) : String :=
  "Something went wrong extracting the repository, check it manually - " ++
    r.repo_url ++ " (it may be too big).\n" ++ e

structure DownloadResult where
  outcome : Except String (Option String)
  archiveAfter : Bool
  writePath : Option String

/-- Model of `os.path.join` as used at lines 159-160 and 204. -/
def pathJoin (a b : String) : String := a ++ "/" ++ b

def download_repository (status200 : Bool) (respText : String)
    (r : SearchResult) (ext : ExtractOutcome) (fsIn : Bool) : DownloadResult :=
  if status200 = false then
    { outcome := Except.error respText, archiveAfter := fsIn, writePath := none }
  else
    match ext with
    | ExtractOutcome.ok =>
      { outcome := Except.ok none, archiveAfter := false,
        writePath := some TMP_ARCHIVE }
    | ExtractOutcome.fileNotFound e =>
      { outcome := Except.ok (some (extract_fail_msg r e)),
        archiveAfter := false, writePath := some TMP_ARCHIVE }
    | ExtractOutcome.otherError e =>
      { outcome := Except.error e, archiveAfter := false,
        writePath := some TMP_ARCHIVE }

/-!
`add_to_records` (lines 170-179): five `f.write` calls appended to the record
file.  Note the failure line (line 178) has no trailing newline, while the
success line (line 176) does.  The timestamp string `dt.strftime(...)` is
passed in as `ts`.
-/

def add_to_records_entry (r : SearchResult) (ts : String)
    (failMsg : Option String) : String :=
  (("Owner: " ++ r.owner) ++ "\n") ++
  ((("Repository: " ++ r.repo_url) ++ "\n") ++
  ((("Search Result: " ++ r.search_url) ++ "\n") ++
  ((match failMsg with
    | none => (("Downloaded: " ++ ts ++ " US EST") ++ "\n")
    | some m => "Download failed! Message: " ++ m) ++
  (String.mk (List.replicate 50 '=') ++ "\n\n"))))

/-!
`enter_query_loop` (lines 182-200).  The aggregated `results` list is passed
in (its computation is `get_query_results` above); the operator's answers and
the remote outcomes are oracles indexed by the loop position `i`:
`decision i` is the boolean returned by `preview_file_content` for result
`i`, `status200 i`/`extractRes i` drive `download_repository`, and
`respText i` is the zipball error body.  Observable side effects are
returned as an `Event` trace; an uncaught exception of
`download_repository` is an `Except.error` result that ends the trace.
-/

inductive Event where
  | preview (r : SearchResult)
  | raiseIssue (r : SearchResult)
  | record (r : SearchResult) (failMsg : Option String)
deriving DecidableEq

structure TriageEnv where
  decision : Nat → Bool
  status200 : Nat → Bool
  extractRes : Nat → ExtractOutcome
  respText : Nat → String
  raiseIssueCfg : Bool

def triageLoop (env : TriageEnv) :
    List SearchResult → Nat → List (String × String) →
    List Event × Except String (List (String × String))
  | [], _, yes => ([], Except.ok yes)
  | r :: rest, i, yes =>
    if keyOf r ∈ yes then
      triageLoop env rest (i + 1) yes
    else if env.decision i then
      let preEvs := Event.preview r ::
        (if env.raiseIssueCfg then [Event.raiseIssue r] else [])
      match (download_repository (env.status200 i) (env.respText i) r
              (env.extractRes i) false).outcome with
      | Except.error e => (preEvs, Except.error e)
      | Except.ok failMsg =>
        let t := triageLoop env rest (i + 1) (keyOf r :: yes)
        (preEvs ++ Event.record r failMsg :: t.1, t.2)
    else
      let t := triageLoop env rest (i + 1) yes
      (Event.preview r :: t.1, t.2)

def enter_query_loop (env : TriageEnv) (results : List SearchResult)
    (confirmAnswer : Bool) :
    List Event × Except String (Option (List (String × String))) :=
  if CONFIRM_PREVIEW_THRESHOLD ≤ results.length ∧ confirmAnswer = false then
    ([], Except.ok none)
  else
    let t := triageLoop env results 0 []
    (t.1, t.2.map some)

/-!
The per-query statement of `main` (line 227): `yes_set.update(...)` applied
to the value returned by `enter_query_loop`.  When that value is `None`
(the bare `return` at line 186), `set.update(None)` raises `TypeError`.
-/

def main_update (yesSet : List (String × String)) :
    Except String (Option (List (String × String))) →
    Except String (List (String × String))
  | Except.error e => Except.error e
  | Except.ok none => Except.error "TypeError: argument of type NoneType is not iterable"
  | Except.ok (some l) => Except.ok (l ++ yesSet)

/-!
`get_yes_no_response` (lines 73-78): read inputs until one of `y`, `yes`,
`n`, `no` (case-insensitive) is given, return whether it was affirmative.
The Python loop blocks forever on invalid input; the embedding consumes a
finite list of inputs and returns `none` when it is exhausted while the
Python loop would still be prompting.
-/

def lowerStr (s : String) : String := String.mk (s.data.map Char.toLower)

def isYesStr (s : String) : Bool := s = "y" || s = "yes"

def isNoStr (s : String) : Bool := s = "n" || s = "no"

def get_yes_no_response : List String → Option Bool
  | [] => none
  | a :: rest =>
    let b := lowerStr a
    if isYesStr b || isNoStr b then some (isYesStr b)
    else get_yes_no_response rest

/-!
`preview_file_content` with `scroll_enabled = True` (lines 114-137).  The
decoded file content is `ls` (its `splitlines()`), the inline response typed
after line `i` is `resp i`, and the inputs offered to the final
`get_yes_no_response` prompt (line 137) are `finalInputs`.  The returned
trace records, per line index, whether the line was only printed
(`shown`, lines 126-128) or printed with an inline response solicited
(`prompted`, lines 129-134).
-/

inductive PrevStep where
  | shown (i : Nat)
  | prompted (i : Nat)
deriving DecidableEq

def scrollLoop (resp : Nat → String) :
    List String → Nat → List PrevStep × Option Bool
  | [], _ => ([], none)
  | _ :: rest, i =>
    if i < INITIAL_PREVIEW_SIZE then
      let t := scrollLoop resp rest (i + 1)
      (PrevStep.shown i :: t.1, t.2)
    else if isYesStr (lowerStr (resp i)) then
      ([PrevStep.prompted i], some true)
    else if isNoStr (lowerStr (resp i)) then
      ([PrevStep.prompted i], some false)
    else
      let t := scrollLoop resp rest (i + 1)
      (PrevStep.prompted i :: t.1, t.2)

def preview_scroll (ls : List String) (resp : Nat → String)
    (finalInputs : List String) : List PrevStep × Option Bool :=
  let t := scrollLoop resp ls 0
  (t.1, match t.2 with
        | some b => some b
        | none => get_yes_no_response finalInputs)

/-!
Line decomposition of a string, used to state where the record-file
separator line lands.  `splitLines` agrees with viewing a string as
newline-separated lines (like Python reading the file back): it is the
list of maximal newline-free segments.
-/

def splitLines : List Char → List (List Char)
  | [] => [[]]
  | c :: cs =>
    if c = '\n' then [] :: splitLines cs
    else
      match splitLines cs with
      | [] => [[c]]
      | l :: ls => (c :: l) :: ls

theorem splitLines_line_cons (xs ys : List Char) (h : '\n' ∉ xs) :
    splitLines (xs ++ '\n' :: ys) = xs :: splitLines ys := by
  induction xs with
  | nil => simp [splitLines]
  | cons c cs ih =>
    have hc : ¬ c = '\n' := fun hh => h (hh ▸ List.mem_cons_self c cs)
    have hcs : '\n' ∉ cs := fun hh => h (List.mem_cons_of_mem c hh)
    simp only [List.cons_append, splitLines, if_neg hc, List.append_eq]
    rw [ih hcs]

theorem splitLines_no_newline (xs : List Char) (h : '\n' ∉ xs) :
    splitLines xs = [xs] := by
  induction xs with
  | nil => simp [splitLines]
  | cons c cs ih =>
    have hc : ¬ c = '\n' := fun hh => h (hh ▸ List.mem_cons_self c cs)
    have hcs : '\n' ∉ cs := fun hh => h (List.mem_cons_of_mem c hh)
    simp only [splitLines, if_neg hc, ih hcs]

/- Event counting helpers for the triage trace. -/

def previewCountFor (k : String × String) (evs : List Event) : Nat :=
  evs.countP fun ev =>
    match ev with
    | Event.preview r => decide (keyOf r = k)
    | _ => false

def recordCountFor (k : String × String) (evs : List Event) : Nat :=
  evs.countP fun ev =>
    match ev with
    | Event.record r _ => decide (keyOf r = k)
    | _ => false

def recordTotal (evs : List Event) : Nat :=
  evs.countP fun ev =>
    match ev with
    | Event.record _ _ => true
    | _ => false

theorem previewCountFor_append (k : String × String) (a b : List Event) :
    previewCountFor k (a ++ b) = previewCountFor k a + previewCountFor k b := by
  simp [previewCountFor, List.countP_append]

theorem previewCountFor_cons_preview (k : String × String) (r : SearchResult)
    (evs : List Event) :
    previewCountFor k (Event.preview r :: evs) =
      previewCountFor k evs + (if keyOf r = k then 1 else 0) := by
  by_cases h : keyOf r = k <;> simp [previewCountFor, List.countP_cons, h]

theorem previewCountFor_cons_record (k : String × String) (r : SearchResult)
    (m : Option String) (evs : List Event) :
    previewCountFor k (Event.record r m :: evs) = previewCountFor k evs := by
  simp [previewCountFor, List.countP_cons]

theorem previewCountFor_issueEvs (k : String × String) (r : SearchResult)
    (b : Bool) (evs : List Event) :
    previewCountFor k ((if b then [Event.raiseIssue r] else []) ++ evs) =
      previewCountFor k evs := by
  cases b <;> simp [previewCountFor, List.countP_append, List.countP_cons]

theorem recordCountFor_append (k : String × String) (a b : List Event) :
    recordCountFor k (a ++ b) = recordCountFor k a + recordCountFor k b := by
  simp [recordCountFor, List.countP_append]

theorem recordCountFor_cons_preview (k : String × String) (r : SearchResult)
    (evs : List Event) :
    recordCountFor k (Event.preview r :: evs) = recordCountFor k evs := by
  simp [recordCountFor, List.countP_cons]

theorem recordCountFor_cons_record (k : String × String) (r : SearchResult)
    (m : Option String) (evs : List Event) :
    recordCountFor k (Event.record r m :: evs) =
      recordCountFor k evs + (if keyOf r = k then 1 else 0) := by
  by_cases h : keyOf r = k <;> simp [recordCountFor, List.countP_cons, h]

theorem recordCountFor_issueEvs (k : String × String) (r : SearchResult)
    (b : Bool) (evs : List Event) :
    recordCountFor k ((if b then [Event.raiseIssue r] else []) ++ evs) =
      recordCountFor k evs := by
  cases b <;> simp [recordCountFor, List.countP_append, List.countP_cons]

theorem recordTotal_cons_preview (r : SearchResult) (evs : List Event) :
    recordTotal (Event.preview r :: evs) = recordTotal evs := by
  simp [recordTotal, List.countP_cons]

theorem recordTotal_cons_record (r : SearchResult) (m : Option String)
    (evs : List Event) :
    recordTotal (Event.record r m :: evs) = recordTotal evs + 1 := by
  simp [recordTotal, List.countP_cons]

theorem recordTotal_issueEvs (r : SearchResult) (b : Bool)
    (evs : List Event) :
    recordTotal ((if b then [Event.raiseIssue r] else []) ++ evs) =
      recordTotal evs := by
  cases b <;> simp [recordTotal, List.countP_append, List.countP_cons]

theorem previewCountFor_issueList (k : String × String) (r : SearchResult)
    (b : Bool) :
    previewCountFor k (if b then [Event.raiseIssue r] else []) = 0 := by
  cases b <;> simp [previewCountFor, List.countP_cons]

theorem recordCountFor_issueList (k : String × String) (r : SearchResult)
    (b : Bool) :
    recordCountFor k (if b then [Event.raiseIssue r] else []) = 0 := by
  cases b <;> simp [recordCountFor, List.countP_cons]

theorem triage_preview_avoids_accepted (env : TriageEnv) :
    ∀ (rs : List SearchResult) (i : Nat) (yes : List (String × String))
      (k : String × String), k ∈ yes →
      previewCountFor k (triageLoop env rs i yes).1 = 0 := by
  intro rs
  induction rs with
  | nil =>
    intro i yes k hk
    simp [triageLoop, previewCountFor]
  | cons r rest ih =>
    intro i yes k hk
    by_cases hmem : keyOf r ∈ yes
    · simp only [triageLoop, if_pos hmem]
      exact ih (i + 1) yes k hk
    · have hne : ¬ keyOf r = k := fun h => hmem (h ▸ hk)
      by_cases hdec : env.decision i = true
      · cases hout : (download_repository (env.status200 i) (env.respText i) r
            (env.extractRes i) false).outcome with
        | error e =>
          simp only [triageLoop, if_neg hmem, if_pos hdec, hout]
          rw [previewCountFor_cons_preview, previewCountFor_issueList,
            if_neg hne]
        | ok m =>
          simp only [triageLoop, if_neg hmem, if_pos hdec, hout,
            List.cons_append]
          rw [previewCountFor_cons_preview, previewCountFor_issueEvs,
            previewCountFor_cons_record, if_neg hne,
            ih (i + 1) (keyOf r :: yes) k (List.mem_cons_of_mem _ hk)]
      · simp only [triageLoop, if_neg hmem, if_neg hdec]
        rw [previewCountFor_cons_preview, if_neg hne,
          ih (i + 1) yes k hk]

theorem triage_record_le (env : TriageEnv) :
    ∀ (rs : List SearchResult) (i : Nat) (yes : List (String × String))
      (k : String × String),
      recordCountFor k (triageLoop env rs i yes).1 ≤
        (if k ∈ yes then 0 else 1) := by
  intro rs
  induction rs with
  | nil =>
    intro i yes k
    simp [triageLoop, recordCountFor]
  | cons r rest ih =>
    intro i yes k
    by_cases hmem : keyOf r ∈ yes
    · simp only [triageLoop, if_pos hmem]
      exact ih (i + 1) yes k
    · by_cases hdec : env.decision i = true
      · cases hout : (download_repository (env.status200 i) (env.respText i) r
            (env.extractRes i) false).outcome with
        | error e =>
          simp only [triageLoop, if_neg hmem, if_pos hdec, hout]
          rw [recordCountFor_cons_preview, recordCountFor_issueList]
          exact Nat.zero_le _
        | ok m =>
          simp only [triageLoop, if_neg hmem, if_pos hdec, hout,
            List.cons_append]
          rw [recordCountFor_cons_preview, recordCountFor_issueEvs,
            recordCountFor_cons_record]
          have h1 := ih (i + 1) (keyOf r :: yes) k
          by_cases hkr : keyOf r = k
          · have hky : ¬ k ∈ yes := fun h => hmem (hkr ▸ h)
            have hmemc : k ∈ keyOf r :: yes := by
              rw [hkr]; exact List.mem_cons_self _ _
            rw [if_pos hmemc] at h1
            rw [if_pos hkr, if_neg hky]
            omega
          · have hmemc : (k ∈ keyOf r :: yes) ↔ (k ∈ yes) := by
              constructor
              · intro h
                rcases List.mem_cons.mp h with h | h
                · exact absurd h.symm hkr
                · exact h
              · exact fun h => List.mem_cons_of_mem _ h
            rw [if_neg hkr]
            by_cases hky : k ∈ yes
            · rw [if_pos (hmemc.mpr hky)] at h1
              rw [if_pos hky]
              omega
            · rw [if_neg (fun h => hky (hmemc.mp h))] at h1
              rw [if_neg hky]
              omega
      · simp only [triageLoop, if_neg hmem, if_neg hdec]
        rw [recordCountFor_cons_preview]
        exact ih (i + 1) yes k

theorem triage_records_eq (env : TriageEnv) :
    ∀ (rs : List SearchResult) (i : Nat) (yes final : List (String × String)),
      (triageLoop env rs i yes).2 = Except.ok final →
      recordTotal (triageLoop env rs i yes).1 + yes.length = final.length := by
  intro rs
  induction rs with
  | nil =>
    intro i yes final hok
    simp only [triageLoop] at hok ⊢
    cases hok
    simp [recordTotal]
  | cons r rest ih =>
    intro i yes final hok
    by_cases hmem : keyOf r ∈ yes
    · simp only [triageLoop, if_pos hmem] at hok ⊢
      exact ih (i + 1) yes final hok
    · by_cases hdec : env.decision i = true
      · cases hout : (download_repository (env.status200 i) (env.respText i) r
            (env.extractRes i) false).outcome with
        | error e =>
          simp only [triageLoop, if_neg hmem, if_pos hdec, hout] at hok
          simp at hok
        | ok m =>
          simp only [triageLoop, if_neg hmem, if_pos hdec, hout,
            List.cons_append] at hok ⊢
          have h1 := ih (i + 1) (keyOf r :: yes) final hok
          rw [recordTotal_cons_preview, recordTotal_issueEvs,
            recordTotal_cons_record]
          simp only [List.length_cons] at h1
          omega
      · simp only [triageLoop, if_neg hmem, if_neg hdec] at hok ⊢
        have h1 := ih (i + 1) yes final hok
        rw [recordTotal_cons_preview]
        exact h1

theorem scrollLoop_shows_initial (resp : Nat → String) :
    ∀ (ls : List String) (i k : Nat), k < ls.length →
      i + k < INITIAL_PREVIEW_SIZE →
      PrevStep.shown (i + k) ∈ (scrollLoop resp ls i).1 := by
  intro ls
  induction ls with
  | nil =>
    intro i k hk hik
    simp at hk
  | cons a rest ih =>
    intro i k hk hik
    have hi : i < INITIAL_PREVIEW_SIZE := by omega
    simp only [scrollLoop, if_pos hi]
    cases k with
    | zero => exact List.mem_cons_self _ _
    | succ k =>
      apply List.mem_cons_of_mem
      have := ih (i + 1) k (by simpa using Nat.lt_of_succ_lt_succ hk)
        (by omega)
      rw [show i + 1 + k = i + (k + 1) from by omega] at this
      exact this

theorem scrollLoop_prompt_lower_bound (resp : Nat → String) :
    ∀ (ls : List String) (i j : Nat),
      PrevStep.prompted j ∈ (scrollLoop resp ls i).1 →
      INITIAL_PREVIEW_SIZE ≤ j ∧ i ≤ j := by
  intro ls
  induction ls with
  | nil =>
    intro i j hmem
    simp [scrollLoop] at hmem
  | cons a rest ih =>
    intro i j hmem
    by_cases hi : i < INITIAL_PREVIEW_SIZE
    · simp only [scrollLoop, if_pos hi] at hmem
      rcases List.mem_cons.mp hmem with h | h
      · exact absurd h (by simp)
      · have := ih (i + 1) j h
        omega
    · by_cases hyes : isYesStr (lowerStr (resp i)) = true
      · simp only [scrollLoop, if_neg hi, if_pos hyes] at hmem
        simp at hmem
        omega
      · by_cases hno : isNoStr (lowerStr (resp i)) = true
        · simp only [scrollLoop, if_neg hi, if_neg hyes, if_pos hno] at hmem
          simp at hmem
          omega
        · simp only [scrollLoop, if_neg hi, if_neg hyes, if_neg hno] at hmem
          rcases List.mem_cons.mp hmem with h | h
          · have : j = i := by injection h
            omega
          · have := ih (i + 1) j h
            omega

theorem scrollLoop_yes_accepts (resp : Nat → String) :
    ∀ (ls : List String) (i j : Nat),
      PrevStep.prompted j ∈ (scrollLoop resp ls i).1 →
      isYesStr (lowerStr (resp j)) = true →
      (scrollLoop resp ls i).2 = some true := by
  intro ls
  induction ls with
  | nil =>
    intro i j hmem _
    simp [scrollLoop] at hmem
  | cons a rest ih =>
    intro i j hmem hy
    by_cases hi : i < INITIAL_PREVIEW_SIZE
    · simp only [scrollLoop, if_pos hi] at hmem ⊢
      rcases List.mem_cons.mp hmem with h | h
      · exact absurd h (by simp)
      · exact ih (i + 1) j h hy
    · by_cases hyes : isYesStr (lowerStr (resp i)) = true
      · simp only [scrollLoop, if_neg hi, if_pos hyes]
      · by_cases hno : isNoStr (lowerStr (resp i)) = true
        · simp only [scrollLoop, if_neg hi, if_neg hyes, if_pos hno] at hmem
          simp at hmem
          rw [hmem] at hy
          exact absurd hy hyes
        · simp only [scrollLoop, if_neg hi, if_neg hyes, if_neg hno]
            at hmem ⊢
          rcases List.mem_cons.mp hmem with h | h
          · have : j = i := by injection h
            rw [this] at hy
            exact absurd hy hyes
          · exact ih (i + 1) j h hy

theorem scrollLoop_no_rejects (resp : Nat → String) :
    ∀ (ls : List String) (i j : Nat),
      PrevStep.prompted j ∈ (scrollLoop resp ls i).1 →
      isYesStr (lowerStr (resp j)) = false →
      isNoStr (lowerStr (resp j)) = true →
      (scrollLoop resp ls i).2 = some false := by
  intro ls
  induction ls with
  | nil =>
    intro i j hmem _ _
    simp [scrollLoop] at hmem
  | cons a rest ih =>
    intro i j hmem hy hn
    by_cases hi : i < INITIAL_PREVIEW_SIZE
    · simp only [scrollLoop, if_pos hi] at hmem ⊢
      rcases List.mem_cons.mp hmem with h | h
      · exact absurd h (by simp)
      · exact ih (i + 1) j h hy hn
    · by_cases hyes : isYesStr (lowerStr (resp i)) = true
      · simp only [scrollLoop, if_neg hi, if_pos hyes] at hmem
        simp at hmem
        rw [hmem] at hy
        rw [hyes] at hy
        exact absurd hy (by simp)
      · by_cases hno : isNoStr (lowerStr (resp i)) = true
        · simp only [scrollLoop, if_neg hi, if_neg hyes, if_pos hno]
        · simp only [scrollLoop, if_neg hi, if_neg hyes, if_neg hno]
            at hmem ⊢
          rcases List.mem_cons.mp hmem with h | h
          · have : j = i := by injection h
            rw [this] at hn
            exact absurd hn hno
          · exact ih (i + 1) j h hy hn

theorem scrollLoop_exhausted (resp : Nat → String) :
    ∀ (ls : List String) (i : Nat),
      (∀ j, PrevStep.prompted j ∈ (scrollLoop resp ls i).1 →
        (isYesStr (lowerStr (resp j)) || isNoStr (lowerStr (resp j))) = false) →
      (scrollLoop resp ls i).2 = none := by
  intro ls
  induction ls with
  | nil =>
    intro i _
    simp [scrollLoop]
  | cons a rest ih =>
    intro i hnd
    by_cases hi : i < INITIAL_PREVIEW_SIZE
    · simp only [scrollLoop, if_pos hi] at hnd ⊢
      exact ih (i + 1) fun j h =>
        hnd j (List.mem_cons_of_mem _ h)
    · by_cases hyes : isYesStr (lowerStr (resp i)) = true
      · have := hnd i (by simp [scrollLoop, if_neg hi, if_pos hyes])
        rw [hyes] at this
        exact absurd this (by simp)
      · by_cases hno : isNoStr (lowerStr (resp i)) = true
        · have := hnd i
            (by simp [scrollLoop, if_neg hi, if_neg hyes, if_pos hno])
          rw [hno] at this
          simp at this
        · simp only [scrollLoop, if_neg hi, if_neg hyes, if_neg hno]
            at hnd ⊢
          exact ih (i + 1) fun j h =>
            hnd j (List.mem_cons_of_mem _ h)

theorem scrollLoop_solicits (resp : Nat → String) :
    ∀ (ls : List String) (i j : Nat), i ≤ j → j < i + ls.length →
      INITIAL_PREVIEW_SIZE ≤ j →
      (∀ m, INITIAL_PREVIEW_SIZE ≤ m → m < j →
        (isYesStr (lowerStr (resp m)) || isNoStr (lowerStr (resp m))) = false) →
      PrevStep.prompted j ∈ (scrollLoop resp ls i).1 := by
  intro ls
  induction ls with
  | nil =>
    intro i j h1 h2 _ _
    simp at h2
    omega
  | cons a rest ih =>
    intro i j h1 h2 h3 hnd
    by_cases hi : i < INITIAL_PREVIEW_SIZE
    · have hij : i + 1 ≤ j := by omega
      simp only [scrollLoop, if_pos hi]
      apply List.mem_cons_of_mem
      exact ih (i + 1) j hij (by simp at h2 ⊢; omega) h3 hnd
    · by_cases hj : j = i
      · subst hj
        by_cases hyes : isYesStr (lowerStr (resp j)) = true
        · simp [scrollLoop, if_neg hi, if_pos hyes]
        · by_cases hno : isNoStr (lowerStr (resp j)) = true
          · simp [scrollLoop, if_neg hi, if_neg hyes, if_pos hno]
          · simp [scrollLoop, if_neg hi, if_neg hyes, if_neg hno]
      · have hij : i < j := by omega
        have hd := hnd i (by omega) hij
        have hyes : ¬ isYesStr (lowerStr (resp i)) = true := by
          intro h
          rw [h] at hd
          simp at hd
        have hno : ¬ isNoStr (lowerStr (resp i)) = true := by
          intro h
          rw [h] at hd
          simp at hd
        simp only [scrollLoop, if_neg hi, if_neg hyes, if_neg hno]
        apply List.mem_cons_of_mem
        exact ih (i + 1) j (by omega) (by simp at h2 ⊢; omega) h3 hnd

/- Concrete sample data used by witnesses and counterexamples. -/

def item0 : RawItem :=
  { repository_html_url := "https://g/a/b"
    repository_name := "b"
    repository_owner_login := "a"
    html_url := "https://g/a/b/f.py"
    path := "f.py" }

def rab : SearchResult :=
  { repo_url := "https://g/a/b", search_url := "https://g/a/b/f.py"
    owner := "a", repo := "b", path := "f.py" }

def rab2 : SearchResult :=
  { repo_url := "https://g/a/b", search_url := "https://g/a/b/g.py"
    owner := "a", repo := "b", path := "g.py" }

def rcd : SearchResult :=
  { repo_url := "https://g/c/d", search_url := "https://g/c/d/h.py"
    owner := "c", repo := "d", path := "h.py" }

def envAccept : TriageEnv :=
  { decision := fun _ => true
    status200 := fun _ => true
    extractRes := fun _ => ExtractOutcome.ok
    respText := fun _ => ""
    raiseIssueCfg := false }

def envReject : TriageEnv :=
  { envAccept with decision := fun _ => false }

def envBadZip : TriageEnv :=
  { envAccept with
    extractRes := fun _ => ExtractOutcome.otherError "File is not a zip file" }

def envFnf : TriageEnv :=
  { envAccept with
    extractRes := fun _ => ExtractOutcome.fileNotFound "No such file or directory" }

def netW : Nat → Option (List RawItem) := fun p =>
  if p = 1 then some (List.replicate 30 item0)
  else if p = 2 then some [item0]
  else none

def netNone : Nat → Option (List RawItem) := fun _ => none

/-- Claim C3: for a search whose first `k - 1` pages each return exactly 30
items and whose page `k` returns `m < 30` items, `get_query_results` returns
exactly the `30 * (k - 1) + m` results of pages `1, ..., k` flattened in
page-then-within-page order, terminating at the first short page (including
the boundary `m = 0`). -/
theorem get_query_results_full_pages_then_short
    (net : Nat → Option (List RawItem)) (k m fuel : Nat)
    (hk : 1 ≤ k) (hfuel : k ≤ fuel)
    (hfull : ∀ p, p < k → 1 ≤ p → (net p).map List.length = some 30)
    (hlast : (net k).map List.length = some m) (hm : m < 30) :
    get_query_results net fuel = FetchOutcome.ok (joinPages net 1 k) ∧
    (joinPages net 1 k).length = 30 * (k - 1) + m := by
  obtain ⟨last, hl, hlen⟩ : ∃ l, net k = some l ∧ l.length = m := by
    cases hnk : net k with
    | none => rw [hnk] at hlast; simp at hlast
    | some l => rw [hnk] at hlast; simp at hlast; exact ⟨l, rfl, hlast⟩
  have hk1 : k - 1 + 1 = k := by omega
  have hfull2 : ∀ q, 1 ≤ q → q < 1 + (k - 1) →
      (net q).map List.length = some 30 := by
    intro q h1 h2
    exact hfull q (by omega) h1
  have hshort : ∃ last, net (1 + (k - 1)) = some last ∧ last.length < 30 := by
    refine ⟨last, ?_, by omega⟩
    rw [show 1 + (k - 1) = k from by omega]
    exact hl
  constructor
  · have h := queryLoop_spec net (k - 1) 1 [] fuel (by omega) hfull2 hshort
    simp only [get_query_results]
    rw [h, hk1]
    simp
  · have h := joinPages_length net (k - 1) 1 hfull2 last
      (by rw [show 1 + (k - 1) = k from by omega]; exact hl)
    rw [hk1] at h
    rw [h, hlen]

/-- Witness for C3 at a concrete two-page search (30 items then 1 item). -/
theorem get_query_results_full_pages_then_short_witness :
    (1 ≤ 2 ∧ (netW 2).map List.length = some 1) ∧
    (get_query_results netW 2 = FetchOutcome.ok (joinPages netW 1 2) ∧
      (joinPages netW 1 2).length = 30 * (2 - 1) + 1) :=
  ⟨⟨by decide, by decide⟩,
   get_query_results_full_pages_then_short netW 2 1 2 (by decide) (by decide)
     (by
       intro p hp h1
       have hp1 : p = 1 := by omega
       rw [hp1]
       rfl)
     (by decide) (by decide)⟩

/-- Claim C7: `make_request` fails with the rate-limit error exactly when the
payload lacks the `items` field; when `items` is present its elements are
returned; and the failure is surfaced by the pagination loop (the current
query ends as `rateLimited` immediately), not retried. -/
theorem make_request_missing_items_rate_limit
    (net : Nat → Option (List RawItem)) (page : Nat) :
    (make_request net page = Except.error () ↔ net page = none) ∧
    (∀ items, net page = some items → make_request net page = Except.ok items) ∧
    (∀ fuel acc, net page = none →
      queryLoop net (fuel + 1) page acc = FetchOutcome.rateLimited) := by
  refine ⟨?_, ?_, ?_⟩
  · cases h : net page <;> simp [make_request, h]
  · intro items h
    simp [make_request, h]
  · intro fuel acc h
    simp [queryLoop, make_request, h]

/-- Witness for C7 at a payload with no `items` field on any page. -/
theorem make_request_missing_items_rate_limit_witness :
    make_request netNone 1 = Except.error () ∧
    queryLoop netNone 5 1 [] = FetchOutcome.rateLimited :=
  ⟨(make_request_missing_items_rate_limit netNone 1).1.mpr rfl,
   (make_request_missing_items_rate_limit netNone 1).2.2 4 [] rfl⟩

/-- Claim C8: once the extraction step is reached (HTTP 200, archive bytes
written), the temporary archive is absent afterwards on every exit path of
`download_repository` (success, caught failure, propagated failure); on a
non-200 status the write never happens and the filesystem is untouched. -/
theorem download_repository_archive_removed_after_extraction
    (r : SearchResult) (t : String) (e : ExtractOutcome) (fsIn : Bool) :
    (download_repository true t r e fsIn).archiveAfter = false ∧
    (download_repository false t r e fsIn).archiveAfter = fsIn := by
  cases e <;> simp [download_repository]

/-- Claim C10: every download that writes the archive writes it to the same
fixed relative path `output.zip` (no directory separator, hence the current
working directory), never to a path under the configured output root, and
the path is shared by every result of the run. -/
theorem download_repository_fixed_archive_path
    (r1 r2 : SearchResult) (t1 t2 : String) (e1 e2 : ExtractOutcome)
    (f1 f2 : Bool) (root : String) :
    (download_repository true t1 r1 e1 f1).writePath = some TMP_ARCHIVE ∧
    (download_repository true t2 r2 e2 f2).writePath =
      (download_repository true t1 r1 e1 f1).writePath ∧
    TMP_ARCHIVE = "output.zip" ∧
    '/' ∉ TMP_ARCHIVE.data ∧
    (∀ s, pathJoin root s ≠ TMP_ARCHIVE) := by
  refine ⟨?_, ?_, rfl, by decide, ?_⟩
  · cases e1 <;> rfl
  · cases e1 <;> cases e2 <;> rfl
  · intro s h
    have hm : '/' ∈ (pathJoin root s).data := by
      simp only [pathJoin, String.data_append]
      exact List.mem_append.mpr
        (Or.inl (List.mem_append.mpr (Or.inr (by decide))))
    rw [h] at hm
    exact absurd hm (by decide)

/-- Claim C1 counterexample: a first query of the run accepts the pair
`(a, b)` (so it enters the run-wide accepted set via `main`), yet a later
query of the same run previews a result with that very pair again —
`enter_query_loop` builds a fresh `yes_set` per query and is never given the
run-wide set, so the claimed run-wide skip does not exist. -/
theorem enter_query_loop_previews_previously_accepted_pair :
    main_update [] (enter_query_loop envAccept [rab] true).2 =
      Except.ok [("a", "b")] ∧
    keyOf rab2 = ("a", "b") ∧
    Event.preview rab2 ∈ (enter_query_loop envAccept [rab2] true).1 := by
  refine ⟨rfl, rfl, ?_⟩
  have h : (enter_query_loop envAccept [rab2] true).1 =
      [Event.preview rab2, Event.record rab2 none] := rfl
  rw [h]
  exact List.mem_cons_self _ _

/-- Claim C1 (amended): the skip applies to the query-local accepted set
only — whenever a pair is in the triage loop's `yes_set`, no result with
that pair is previewed for the remainder of that query's loop. -/
theorem triageLoop_never_previews_query_accepted_pair
    (env : TriageEnv) (rs : List SearchResult) (i : Nat)
    (yes : List (String × String)) (k : String × String) (h : k ∈ yes) :
    previewCountFor k (triageLoop env rs i yes).1 = 0 :=
  triage_preview_avoids_accepted env rs i yes k h

/-- Witness for the amended C1: with `(a, b)` already in the loop's
accepted set, a result carrying that pair is not previewed. -/
theorem triageLoop_never_previews_query_accepted_pair_witness :
    previewCountFor ("a", "b") (triageLoop envAccept [rab] 0 [("a", "b")]).1
      = 0 :=
  triageLoop_never_previews_query_accepted_pair envAccept [rab] 0
    [("a", "b")] ("a", "b") (by decide)

/-- Claim C2: when a query's result count meets the confirmation threshold
and the operator declines, the session performs zero previews (empty event
trace) — but it returns `None` rather than an empty set, and `main`'s
`yes_set.update(None)` then raises `TypeError`. -/
theorem enter_query_loop_decline_returns_none
    (env : TriageEnv) (results : List SearchResult)
    (ys : List (String × String))
    (h : CONFIRM_PREVIEW_THRESHOLD ≤ results.length) :
    enter_query_loop env results false = ([], Except.ok none) ∧
    main_update ys (enter_query_loop env results false).2 =
      Except.error "TypeError: argument of type NoneType is not iterable" := by
  have h0 : enter_query_loop env results false = ([], Except.ok none) := by
    simp [enter_query_loop, h]
  refine ⟨h0, ?_⟩
  rw [h0]
  rfl

/-- Witness for C2 at a declined 150-result query. -/
theorem enter_query_loop_decline_returns_none_witness :
    CONFIRM_PREVIEW_THRESHOLD ≤ (List.replicate 150 rab).length ∧
    enter_query_loop envAccept (List.replicate 150 rab) false =
      ([], Except.ok none) := by
  have hlen : CONFIRM_PREVIEW_THRESHOLD ≤ (List.replicate 150 rab).length := by
    rw [List.length_replicate]
    decide
  exact ⟨hlen, (enter_query_loop_decline_returns_none envAccept
    (List.replicate 150 rab) [] hlen).1⟩

/-- Claim C4 counterexample: two results sharing `(owner, repo)` are BOTH
previewed when the first is rejected — only accepted pairs enter `yes_set`,
so a rejected pair does not suppress the later duplicate. -/
theorem triage_previews_duplicate_after_reject :
    keyOf rab = keyOf rab2 ∧
    (enter_query_loop envReject [rab, rab2] true).1 =
      [Event.preview rab, Event.preview rab2] :=
  ⟨rfl, rfl⟩

/-- Claim C4 (amended): per query, at most one result of any `(owner, repo)`
pair triggers the accept-time side effects (at most one record entry per
pair); after a pair is accepted, later duplicates are skipped, whereas a
rejected duplicate may be previewed again. -/
theorem enter_query_loop_at_most_one_record_per_pair
    (env : TriageEnv) (results : List SearchResult) (confirmAnswer : Bool)
    (k : String × String) :
    recordCountFor k (enter_query_loop env results confirmAnswer).1 ≤ 1 := by
  by_cases h : CONFIRM_PREVIEW_THRESHOLD ≤ results.length ∧
      confirmAnswer = false
  · simp [enter_query_loop, h, recordCountFor]
  · simp only [enter_query_loop, if_neg h]
    have h1 := triage_record_le env results 0 [] k
    simpa using h1

/-- Claim C5 counterexample: an extraction failure that is not
`FileNotFoundError` (here `BadZipFile`) is NOT converted into a failure
message: `download_repository` propagates it, the triage loop aborts, the
result gets no record entry and subsequent results are never processed. -/
theorem download_unhandled_extraction_error_aborts_session :
    (download_repository true "" rab
        (ExtractOutcome.otherError "File is not a zip file") false).outcome =
      Except.error "File is not a zip file" ∧
    triageLoop envBadZip [rab, rcd] 0 [] =
      ([Event.preview rab], Except.error "File is not a zip file") :=
  ⟨rfl, rfl⟩

/-- Claim C5 (amended): when extraction fails with `FileNotFoundError`, the
failure is caught and converted into the descriptive message, the result's
record entry carries that message instead of a timestamp, and the loop
continues with the remaining results. -/
theorem triage_caught_extraction_failure_recorded_and_continues
    (env : TriageEnv) (r : SearchResult) (rest : List SearchResult) (i : Nat)
    (yes : List (String × String)) (err : String)
    (hmem : ¬ keyOf r ∈ yes) (hdec : env.decision i = true)
    (hst : env.status200 i = true)
    (hex : env.extractRes i = ExtractOutcome.fileNotFound err) :
    (download_repository (env.status200 i) (env.respText i) r
        (env.extractRes i) false).outcome =
      Except.ok (some (extract_fail_msg r err)) ∧
    triageLoop env (r :: rest) i yes =
      ((Event.preview r ::
          (if env.raiseIssueCfg then [Event.raiseIssue r] else [])) ++
        Event.record r (some (extract_fail_msg r err)) ::
          (triageLoop env rest (i + 1) (keyOf r :: yes)).1,
       (triageLoop env rest (i + 1) (keyOf r :: yes)).2) := by
  have hout : (download_repository (env.status200 i) (env.respText i) r
      (env.extractRes i) false).outcome =
      Except.ok (some (extract_fail_msg r err)) := by
    rw [hst, hex]
    rfl
  refine ⟨hout, ?_⟩
  simp only [triageLoop, if_neg hmem, if_pos hdec, hout]

/-- Witness for the amended C5 at a concrete caught extraction failure. -/
theorem triage_caught_extraction_failure_witness :
    (¬ keyOf rab ∈ ([] : List (String × String))) ∧
    (download_repository (envFnf.status200 0) (envFnf.respText 0) rab
        (envFnf.extractRes 0) false).outcome =
      Except.ok (some (extract_fail_msg rab "No such file or directory")) :=
  ⟨by decide,
   (triage_caught_extraction_failure_recorded_and_continues envFnf rab [] 0
     [] "No such file or directory" (by decide) rfl rfl rfl).1⟩

/-- Claim C9: in scrolling preview mode, every one of the first 10 lines is
printed without soliciting a response; a response is solicited only for
subsequent lines, and for each subsequent line as long as no earlier
decisive response was given; a `y`/`yes` response (case-insensitive)
immediately yields accept, `n`/`no` immediately yields reject; and when the
file is exhausted without a decisive response, the outcome falls through to
the explicit `get_yes_no_response` accept/reject prompt. -/
theorem preview_scroll_behavior (ls : List String) (resp : Nat → String)
    (finalInputs : List String) :
    (∀ i, i < ls.length → i < INITIAL_PREVIEW_SIZE →
      PrevStep.shown i ∈ (preview_scroll ls resp finalInputs).1) ∧
    (∀ j, PrevStep.prompted j ∈ (preview_scroll ls resp finalInputs).1 →
      INITIAL_PREVIEW_SIZE ≤ j) ∧
    (∀ j, PrevStep.prompted j ∈ (preview_scroll ls resp finalInputs).1 →
      isYesStr (lowerStr (resp j)) = true →
      (preview_scroll ls resp finalInputs).2 = some true) ∧
    (∀ j, PrevStep.prompted j ∈ (preview_scroll ls resp finalInputs).1 →
      isYesStr (lowerStr (resp j)) = false → isNoStr (lowerStr (resp j)) = true →
      (preview_scroll ls resp finalInputs).2 = some false) ∧
    ((∀ j, PrevStep.prompted j ∈ (preview_scroll ls resp finalInputs).1 →
        (isYesStr (lowerStr (resp j)) || isNoStr (lowerStr (resp j))) = false) →
      (preview_scroll ls resp finalInputs).2 =
        get_yes_no_response finalInputs) ∧
    (∀ j, INITIAL_PREVIEW_SIZE ≤ j → j < ls.length →
      (∀ m, INITIAL_PREVIEW_SIZE ≤ m → m < j →
        (isYesStr (lowerStr (resp m)) || isNoStr (lowerStr (resp m))) = false) →
      PrevStep.prompted j ∈ (preview_scroll ls resp finalInputs).1) := by
  refine ⟨?_, ?_, ?_, ?_, ?_, ?_⟩
  · intro i h1 h2
    have h := scrollLoop_shows_initial resp ls 0 i h1 (by simpa using h2)
    simpa using h
  · intro j h
    exact (scrollLoop_prompt_lower_bound resp ls 0 j h).1
  · intro j h hy
    have h2 := scrollLoop_yes_accepts resp ls 0 j h hy
    simp [preview_scroll, h2]
  · intro j h hy hn
    have h2 := scrollLoop_no_rejects resp ls 0 j h hy hn
    simp [preview_scroll, h2]
  · intro h
    have h2 := scrollLoop_exhausted resp ls 0 h
    simp [preview_scroll, h2]
  · intro j h1 h2 hnd
    exact scrollLoop_solicits resp ls 0 j (Nat.zero_le j)
      (by simpa using h2) h1 hnd

/-- Witness for C9: a 12-line file, a neutral response on line 10, and `Y`
on line 11, yielding an immediate accept. -/
theorem preview_scroll_behavior_witness :
    PrevStep.prompted 11 ∈
      (preview_scroll
        ["l0", "l1", "l2", "l3", "l4", "l5", "l6", "l7", "l8", "l9", "l10",
         "l11"]
        (fun i => if i = 11 then "Y" else "x") ["n"]).1 ∧
    (preview_scroll
        ["l0", "l1", "l2", "l3", "l4", "l5", "l6", "l7", "l8", "l9", "l10",
         "l11"]
        (fun i => if i = 11 then "Y" else "x") ["n"]).2 = some true :=
  ⟨by decide,
   (preview_scroll_behavior
      ["l0", "l1", "l2", "l3", "l4", "l5", "l6", "l7", "l8", "l9", "l10",
       "l11"]
      (fun i => if i = 11 then "Y" else "x") ["n"]).2.2.1 11 (by decide)
     (by decide)⟩

theorem splitLines_append2 (a b ys : List Char) (ha : '\n' ∉ a)
    (hb : '\n' ∉ b) :
    splitLines (a ++ (b ++ '\n' :: ys)) = (a ++ b) :: splitLines ys := by
  rw [← List.append_assoc]
  refine splitLines_line_cons (a ++ b) ys ?_
  intro h
  rcases List.mem_append.mp h with h | h
  · exact ha h
  · exact hb h

theorem splitLines_append3 (a b c ys : List Char) (ha : '\n' ∉ a)
    (hb : '\n' ∉ b) (hc : '\n' ∉ c) :
    splitLines (a ++ (b ++ (c ++ '\n' :: ys))) =
      (a ++ (b ++ c)) :: splitLines ys := by
  rw [← List.append_assoc, ← List.append_assoc]
  have h := splitLines_line_cons ((a ++ b) ++ c) ys (by
    intro h
    rcases List.mem_append.mp h with h | h
    · rcases List.mem_append.mp h with h | h
      · exact ha h
      · exact hb h
    · exact hc h)
  rw [h, List.append_assoc]

/-- Claim C6 (amended): every accept decision appends exactly one record
block (the number of record entries equals the number of accepted pairs),
each block carries the owner, repository URL and search-hit URL lines
followed by either the `Downloaded:` timestamp line or the
`Download failed! Message:` text; the 50-character separator ends every
block, on a line of its own after a success, but glued directly onto the
failure-message line after a failure (line 178 writes no trailing newline). -/
theorem add_to_records_line_structure
    (env : TriageEnv) (results : List SearchResult) (confirmAnswer : Bool)
    (final : List (String × String)) (r : SearchResult) (ts m : String)
    (hno : '\n' ∉ r.owner.data) (hnr : '\n' ∉ r.repo_url.data)
    (hns : '\n' ∉ r.search_url.data) (hnt : '\n' ∉ ts.data)
    (hnm : '\n' ∉ m.data)
    (hok : (enter_query_loop env results confirmAnswer).2 =
      Except.ok (some final)) :
    recordTotal (enter_query_loop env results confirmAnswer).1 =
      final.length ∧
    splitLines (add_to_records_entry r ts none).data =
      [("Owner: " ++ r.owner).data, ("Repository: " ++ r.repo_url).data,
       ("Search Result: " ++ r.search_url).data,
       ("Downloaded: " ++ ts ++ " US EST").data,
       List.replicate 50 '=', [], []] ∧
    splitLines (add_to_records_entry r ts (some m)).data =
      [("Owner: " ++ r.owner).data, ("Repository: " ++ r.repo_url).data,
       ("Search Result: " ++ r.search_url).data,
       ("Download failed! Message: " ++ m).data ++ List.replicate 50 '=',
       [], []] := by
  have h1 : ("\n" : String).data = ['\n'] := rfl
  have h2 : ("\n\n" : String).data = ['\n', '\n'] := rfl
  have h3 : (String.mk (List.replicate 50 '=')).data =
      List.replicate 50 '=' := rfl
  have hsep : '\n' ∉ List.replicate 50 '=' := by decide
  refine ⟨?_, ?_, ?_⟩
  · by_cases hcond : CONFIRM_PREVIEW_THRESHOLD ≤ results.length ∧
        confirmAnswer = false
    · simp only [enter_query_loop, if_pos hcond] at hok
      simp at hok
    · simp only [enter_query_loop, if_neg hcond] at hok ⊢
      have h4 : (triageLoop env results 0 []).2 = Except.ok final := by
        cases ht : (triageLoop env results 0 []).2 with
        | error e =>
          rw [ht] at hok
          simp [Except.map] at hok
        | ok l =>
          rw [ht] at hok
          simp [Except.map] at hok
          rw [hok]
      have h5 := triage_records_eq env results 0 [] final h4
      simpa using h5
  · have hd : (add_to_records_entry r ts none).data =
        "Owner: ".data ++ (r.owner.data ++ '\n' ::
        ("Repository: ".data ++ (r.repo_url.data ++ '\n' ::
        ("Search Result: ".data ++ (r.search_url.data ++ '\n' ::
        ("Downloaded: ".data ++ (ts.data ++ (" US EST".data ++ '\n' ::
        (List.replicate 50 '=' ++ ['\n', '\n'])))))))))  := by
      simp only [add_to_records_entry, String.data_append, h1, h2, h3,
        List.append_assoc, List.cons_append, List.singleton_append,
        List.nil_append]
    rw [hd, splitLines_append2 _ _ _ (by decide) hno,
      splitLines_append2 _ _ _ (by decide) hnr,
      splitLines_append2 _ _ _ (by decide) hns,
      splitLines_append3 _ _ _ _ (by decide) hnt (by decide),
      splitLines_line_cons (List.replicate 50 '=') ['\n'] hsep]
    have hlast : splitLines ['\n'] = [[], []] := rfl
    rw [hlast]
    simp [String.data_append, List.append_assoc]
  · have hd : (add_to_records_entry r ts (some m)).data =
        "Owner: ".data ++ (r.owner.data ++ '\n' ::
        ("Repository: ".data ++ (r.repo_url.data ++ '\n' ::
        ("Search Result: ".data ++ (r.search_url.data ++ '\n' ::
        ("Download failed! Message: ".data ++ (m.data ++
        (List.replicate 50 '=' ++ ['\n', '\n'])))))))) := by
      simp only [add_to_records_entry, String.data_append, h1, h2, h3,
        List.append_assoc, List.cons_append, List.singleton_append,
        List.nil_append]
    rw [hd, splitLines_append2 _ _ _ (by decide) hno,
      splitLines_append2 _ _ _ (by decide) hnr,
      splitLines_append2 _ _ _ (by decide) hns,
      splitLines_append3 _ _ _ _ (by decide) hnm hsep]
    have hlast : splitLines ['\n'] = [[], []] := rfl
    rw [hlast]
    simp [String.data_append, List.append_assoc]

/-- Witness for the amended C6: one accepted result yields exactly one
record entry. -/
theorem add_to_records_line_structure_witness :
    ('\n' ∉ rab.owner.data ∧
      (enter_query_loop envAccept [rab] true).2 =
        Except.ok (some [("a", "b")])) ∧
    recordTotal (enter_query_loop envAccept [rab] true).1 =
      [("a", "b")].length :=
  ⟨⟨by decide, rfl⟩,
   (add_to_records_line_structure envAccept [rab] true [("a", "b")] rab
     "2024/01/02 03:04:05" "boom" (by decide) (by decide) (by decide)
     (by decide) (by decide) rfl).1⟩

/-- Claim C6 counterexample: in a concrete failure entry the 50-character
separator is not on a line of its own (it is appended to the failure-message
line), while in the corresponding success entry it is. -/
theorem record_entry_separator_not_own_line_on_failure :
    List.replicate 50 '=' ∈
      splitLines (add_to_records_entry rab "2024/01/02 03:04:05" none).data ∧
    ¬ List.replicate 50 '=' ∈
      splitLines
        (add_to_records_entry rab "2024/01/02 03:04:05"
          (some "boom")).data := by
  constructor
  · decide
  · decide
